import Mathlib

/-!
Verification of the storage layer of a tile-based serverless transparency log.

The development shallowly embeds, in Lean, the Google-Cloud-Storage client of
`experimental/gcp-log/function.go` (checkpoint read/write, tile read/write,
leaf sequencing, contiguous scanning) and the in-memory test double of
`testonly/mem_storage.go`.  The object store is modelled as an association
list from object paths to contents, enriched with injectable per-path
failures so that transport errors, attribute-probe errors and writer-close
errors of the real SDK are representable.  Library code of the repository
that is not part of the embedded files (the `api/layout` path helpers, the
tile wire format and the RFC 6962 hashing primitives) is modelled from the
specification, as indicated on each such definition.
-/

set_option autoImplicit false
set_option maxRecDepth 100000

namespace SLog

/-- Error values observable from the embedded storage operations.  `gapi c`
stands for a `*googleapi.Error` carrying HTTP status `c`; `transport` stands
for any non-googleapi I/O error; `dupeLeaf` is the sentinel
`log.ErrDupeLeaf`; `fuel` marks exhaustion of the fuel that makes the
embedded unbounded loops total. -/
inductive GoErr where
  | notExist
  | dupeLeaf
  | gapi (code : Nat)
  | transport
  | msg (s : String)
  | fuel
  deriving DecidableEq, Repr

/-- Object contents keyed by path, most recent binding first. -/
def Store := List (String × String)

instance : DecidableEq Store := by unfold Store; infer_instance

/-- Current content of the object at path `p`, if any. -/
def lookupStore : Store → String → Option String
  | [], _ => none
  | (k, v) :: rest, p => if k = p then some v else lookupStore rest p

/-- First injected error registered for path `p`, if any. -/
def lookupErr : List (String × GoErr) → String → Option GoErr
  | [], _ => none
  | (k, e) :: rest, p => if k = p then some e else lookupErr rest p

/-- The state of the GCS bucket, together with injectable per-path failures:
`readErr` are paths whose `NewReader` fails with a non-NotExist error,
`attrsErr` are paths whose `Attrs` probe fails with a non-NotExist error,
and `writeErr` gives the error with which a writer `Close` on the path
fails (in which case nothing is written). -/
structure GCS where
  objs : Store
  readErr : List String
  attrsErr : List String
  writeErr : List (String × GoErr)
  deriving DecidableEq

/-- Conditional create (`DoesNotExist` precondition): the Close of a GCS
writer opened with `If(Conditions{DoesNotExist: true})`.  An injected error
preempts; otherwise an existing object yields the HTTP 412 precondition
failure and an absent one is written. -/
def condCreate (g : GCS) (p v : String) : Except GoErr GCS :=
  match lookupErr g.writeErr p with
  | some e => .error e
  | none =>
    match lookupStore g.objs p with
    | some _ => .error (.gapi 412)
    | none => .ok { g with objs := (p, v) :: g.objs }

/-- Unconditional write of an object (the writer for `leaves/<hash>`). -/
def uncondWrite (g : GCS) (p v : String) : Except GoErr GCS :=
  match lookupErr g.writeErr p with
  | some e => .error e
  | none => .ok { g with objs := (p, v) :: g.objs }

/-- Objects successfully created by concurrent writers between two calls of
this client; a conditional create by another writer only lands on a path
that is still absent. -/
def applyEnv (g : GCS) : List (String × String) → GCS
  | [] => g
  | (p, v) :: rest =>
    match lookupStore g.objs p with
    | some _ => applyEnv g rest
    | none => applyEnv { g with objs := (p, v) :: g.objs } rest

/-- Lower-case hexadecimal digit. -/
def hexDigit (n : Nat) : Char :=
  if n < 10 then Char.ofNat (48 + n) else Char.ofNat (87 + n)

/-- Two-digit lower-case hexadecimal rendering of a byte value. -/
def hex2 (n : Nat) : String :=
  String.mk [hexDigit ((n / 16) % 16), hexDigit (n % 16)]

/-- Unpadded lower-case hexadecimal rendering, as produced by Go's
`strconv.FormatUint(n, 16)`. -/
def toHexAux : Nat → Nat → List Char
  | 0, _ => []
  | fuelLeft + 1, n =>
    if n = 0 then [] else toHexAux fuelLeft (n / 16) ++ [hexDigit (n % 16)]

def toHex (n : Nat) : String :=
  if n = 0 then "0" else String.mk (toHexAux 64 n)

/-- Numeric value of one hexadecimal digit, upper or lower case. -/
def hexVal (c : Char) : Option Nat :=
  if 48 ≤ c.toNat ∧ c.toNat ≤ 57 then some (c.toNat - 48)
  else if 97 ≤ c.toNat ∧ c.toNat ≤ 102 then some (c.toNat - 87)
  else if 65 ≤ c.toNat ∧ c.toNat ≤ 70 then some (c.toNat - 55)
  else none

def parseHexAux : List Char → Nat → Option Nat
  | [], acc => some acc
  | c :: rest, acc =>
    match hexVal c with
    | some d => parseHexAux rest (acc * 16 + d)
    | none => none

/-- Go's `strconv.ParseUint(s, 16, 64)`: a non-empty run of hexadecimal
digits whose value fits an unsigned 64-bit integer. -/
def parseHex (s : String) : Option Nat :=
  match s.data with
  | [] => none
  | cs =>
    match parseHexAux cs 0 with
    | some n => if n < 2 ^ 64 then some n else none
    | none => none

/-- Decimal digit parse for tile bodies. -/
def decVal (c : Char) : Option Nat :=
  if 48 ≤ c.toNat ∧ c.toNat ≤ 57 then some (c.toNat - 48) else none

def parseDecAux : List Char → Nat → Option Nat
  | [], acc => some acc
  | c :: rest, acc =>
    match decVal c with
    | some d => parseDecAux rest (acc * 10 + d)
    | none => none

def parseDec (s : String) : Option Nat :=
  match s.data with
  | [] => none
  | cs => parseDecAux cs 0

/-- Modelled from the spec: missing `api/layout` source.
`checkpoint_path() = "checkpoint"`. -/
def checkpointPath : String := "checkpoint"

/-- Modelled from the spec: missing `api/layout` source.
`seq_path(i) = "seq/" + 8-hex-digits-of-i, split into 4 two-digit directory
components` (example: `i=0x1A3F` gives `seq/00/00/1a/3f`). -/
def seqPath (i : Nat) : String :=
  "seq/" ++ hex2 ((i / 2 ^ 24) % 256) ++ "/" ++ hex2 ((i / 2 ^ 16) % 256) ++ "/" ++
    hex2 ((i / 2 ^ 8) % 256) ++ "/" ++ hex2 (i % 256)

/-- Hexadecimal rendering of a byte string. -/
def hexBytes : List Nat → String
  | [] => ""
  | b :: rest => hex2 b ++ hexBytes rest

/-- Modelled from the spec: missing `api/layout` source.
`leaf_path(h) = "leaves/" + hex(h) split as 3 two-digit dirs + remainder`. -/
def leafPath (h : List Nat) : String :=
  match h with
  | b0 :: b1 :: b2 :: rest =>
    "leaves/" ++ hex2 b0 ++ "/" ++ hex2 b1 ++ "/" ++ hex2 b2 ++ "/" ++ hexBytes rest
  | short => "leaves/" ++ hexBytes short

/-- Modelled from the spec: missing `api/layout` source.
`tile_path(level, index, tile_size)`: `"tile/" + two-digit-level + "/" +
index split as 4 two-digit dirs`; a suffix `.<tile_size>` is appended iff
`tile_size` lies in `[1,255]`; `tile_size == 0` or `tile_size == 256`
(encoded as 0 mod 256) maps to the unsuffixed path. -/
def tilePath (level index tileSize : Nat) : String :=
  "tile/" ++ hex2 level ++ "/" ++ hex2 ((index / 2 ^ 24) % 256) ++ "/" ++
    hex2 ((index / 2 ^ 16) % 256) ++ "/" ++ hex2 ((index / 2 ^ 8) % 256) ++ "/" ++
    hex2 (index % 256) ++
    (if 1 ≤ tileSize ∧ tileSize ≤ 255 then "." ++ hex2 tileSize else "")

/-- Modelled from the spec: missing `api/layout` source.  The number of tile
leaves of the tile at `(level, index)` present in a tree of `logSize`
entries: the tree has `logSize / 256 ^ level` tile leaves at this tile
level, of which those before `256 * index` belong to earlier tiles
(truncated subtraction caps an out-of-range tile at zero). -/
def leavesUnder (level index logSize : Nat) : Nat :=
  logSize / 256 ^ level - 256 * index

/-- Modelled from the spec: missing `api/layout` source.
`partial_tile_size(level, index, log_size) = min(256,
leaves_under(level, index, log_size))`. -/
def partialTileSize (level index logSize : Nat) : Nat :=
  min 256 (leavesUnder level index logSize)

/-- Modelled from the spec: missing `api` tile source.  A tile records its
tile-leaf count and the non-ephemeral node hashes of the sub-tree, each
rendered as one line of its text serialization. -/
structure Tile where
  numLeaves : Nat
  nodes : List String
  deriving DecidableEq

/-- Modelled from the spec: missing `api` tile source.  `MarshalText`: the
hash size in bytes (32), the tile-leaf count, then the node hashes,
newline-separated. -/
def marshalTile (t : Tile) : String :=
  "32\n" ++ toString t.numLeaves ++ String.join (t.nodes.map (fun n => "\n" ++ n))

/-- Newline splitter over the character list, structurally recursive so
that concrete tile bodies evaluate inside the kernel; it agrees with
splitting on a single newline separator. -/
def splitLinesAux : List Char → List Char → List String
  | [], acc => [String.mk acc.reverse]
  | c :: rest, acc =>
    if c = '\n' then String.mk acc.reverse :: splitLinesAux rest []
    else splitLinesAux rest (c :: acc)

def splitLines (s : String) : List String :=
  splitLinesAux s.data []

/-- Modelled from the spec: missing `api` tile source.  `UnmarshalText`
parses the header lines and takes the remaining lines as node hashes. -/
def unmarshalTile (s : String) : Option Tile :=
  match splitLines s with
  | sz :: cnt :: rest =>
    if sz = "32" then
      match parseDec cnt with
      | some n => some { numLeaves := n, nodes := rest }
      | none => none
    else none
  | _ => none

instance {e a : Type} [DecidableEq e] [DecidableEq a] : DecidableEq (Except e a) :=
  fun x y =>
    match x, y with
    | .error u, .error v =>
      if h : u = v then .isTrue (by rw [h]) else .isFalse (by intro hc; cases hc; exact h rfl)
    | .ok u, .ok v =>
      if h : u = v then .isTrue (by rw [h]) else .isFalse (by intro hc; cases hc; exact h rfl)
    | .error _, .ok _ => .isFalse (by intro hc; cases hc)
    | .ok _, .error _ => .isFalse (by intro hc; cases hc)

/-- Result of a Go call returning `(uint64, error)`. -/
def GoRet := Nat × Option GoErr

instance : DecidableEq GoRet := by unfold GoRet; infer_instance

/-- One loop iteration's worth of interleaved concurrent writes. -/
def Env := List (String × String)

/-- The claim loop of `Client.Sequence` (function.go): probe
`seq/<nextSeq>` with `Attrs`; if it exists bump the hint and retry; on
NotExist conditionally create the object with the leaf bytes, retrying on
an HTTP 412 precondition failure (another writer claimed the number, which
the per-iteration `env` interleaving can cause) and returning any other
close error; after a successful claim write the `leaves/` mapping
unconditionally and return the claimed number.  The state threads
`(store, nextSeq hint)`; the list of environments doubles as fuel. -/
def seqLoop (leaf lp : String) : GCS → Nat → List Env → GCS × Nat × GoRet
  | g, hint, [] => (g, hint, (0, some .fuel))
  | g, hint, env :: envs =>
    if seqPath hint ∈ g.attrsErr then
      (g, hint, (0, some (.msg "couldn't get attr")))
    else
      match lookupStore g.objs (seqPath hint) with
      | some _ => seqLoop leaf lp g (hint + 1) envs
      | none =>
        match condCreate (applyEnv g env) (seqPath hint) leaf with
        | .error (.gapi 412) => seqLoop leaf lp (applyEnv g env) (hint + 1) envs
        | .error e => (applyEnv g env, hint, (0, some e))
        | .ok g2 =>
          match uncondWrite g2 lp (toHex hint) with
          | .error e => (g2, hint, (0, some e))
          | .ok g3 => (g3, hint, (hint, none))

/-- Embeds `Client.Sequence` (function.go): dedupe probe on `leaves/<leafhash>`
(an existing mapping is read back, parsed as hex and returned with
`ErrDupeLeaf`; a non-NotExist read error is returned), then the claim
loop. -/
def Sequence (g : GCS) (hint : Nat) (leafhash : List Nat) (leaf : String)
    (envs : List Env) : GCS × Nat × GoRet :=
  if leafPath leafhash ∈ g.readErr then
    (g, hint, (0, some .transport))
  else
    match lookupStore g.objs (leafPath leafhash) with
    | some body =>
      match parseHex body with
      | some n => (g, hint, (n, some .dupeLeaf))
      | none => (g, hint, (0, some (.msg "parse")))
    | none => seqLoop leaf (leafPath leafhash) g hint envs

/-- Embeds `Client.GetTile` (function.go): read the object at the path for
the expected partial-tile size of `(level, index, logSize)`; a missing
object is reported as the generic NotExist error, without any fallback
read of the unsuffixed full-tile path. -/
def GetTile (g : GCS) (level index logSize : Nat) : Except GoErr Tile :=
  if tilePath level index (partialTileSize level index logSize) ∈ g.readErr then
    .error .transport
  else
    match lookupStore g.objs (tilePath level index (partialTileSize level index logSize)) with
    | none => .error .notExist
    | some t =>
      match unmarshalTile t with
      | none => .error (.msg "failed to parse tile")
      | some tile => .ok tile

/-- Embeds `MemStorage.GetTile` (mem_storage.go): look the same path up in the
in-memory map; a missing entry is `os.ErrNotExist`. -/
def memGetTile (fs : Store) (level index logSize : Nat) : Except GoErr Tile :=
  match lookupStore fs (tilePath level index (partialTileSize level index logSize)) with
  | none => .error .notExist
  | some t =>
    match unmarshalTile t with
    | none => .error (.msg "failed to parse tile")
    | some tile => .ok tile

/-- Embeds `Client.assertContent` (function.go): read the object at `gcsPath` and
compare it byte for byte with `data`. -/
def assertContent (g : GCS) (gcsPath data : String) : Except GoErr Bool :=
  if gcsPath ∈ g.readErr then .error .transport
  else
    match lookupStore g.objs gcsPath with
    | none => .error .notExist
    | some d => .ok (d == data)

/-- Embeds `Client.StoreTile` (function.go): reject a tile-leaf count of 0 or
above 256, serialize, and conditionally create the object at the path for
`count % 256`.  On an HTTP 412 close failure the existing content is
compared with the serialization (equal: success; different: hard error);
a googleapi close failure with any other code falls out of the type switch
without a return, so the function reports success; a non-googleapi close
failure is returned. -/
def StoreTile (g : GCS) (level index : Nat) (tile : Tile) : GCS × Option GoErr :=
  if tile.numLeaves = 0 ∨ tile.numLeaves > 256 then
    (g, some (.msg "tileSize must be > 0 and <= 256"))
  else
    match condCreate g (tilePath level index (tile.numLeaves % 256)) (marshalTile tile) with
    | .ok g1 => (g1, none)
    | .error (.gapi code) =>
      if code = 412 then
        match assertContent g (tilePath level index (tile.numLeaves % 256)) (marshalTile tile) with
        | .error _ => (g, some (.msg "failed to read content"))
        | .ok true => (g, none)
        | .ok false => (g, some (.msg "tile content changed"))
      else (g, none)
    | .error e => (g, some e)

/-- Embeds `MemStorage.StoreTile` (mem_storage.go): serialize and store at the
path for `count % 256`, unconditionally and without validation. -/
def memStoreTile (fs : Store) (level index : Nat) (tile : Tile) : Store :=
  (tilePath level index (tile.numLeaves % 256), marshalTile tile) :: fs

/-- The loop of `Client.ScanSequenced` (function.go), threading the
absolute index `e`; `fuel` bounds the unbounded Go loop.  A NotExist read
ends the scan; other read errors and callback errors abort it. -/
def clientScanLoop (g : GCS) (f : Nat → String → Option GoErr) :
    Nat → Nat → Nat × Option GoErr
  | 0, e => (e, some .fuel)
  | fuelLeft + 1, e =>
    if seqPath e ∈ g.readErr then (e, some .transport)
    else
      match lookupStore g.objs (seqPath e) with
      | none => (e, none)
      | some entry =>
        match f e entry with
        | some err => (e, some err)
        | none => clientScanLoop g f fuelLeft (e + 1)

/-- Embeds `Client.ScanSequenced` (function.go): run the loop from `begin` and
return `end - begin`, the number of entries scanned, with any abort
error. -/
def ScanSequenced (g : GCS) (first : Nat) (f : Nat → String → Option GoErr)
    (fuelAmount : Nat) : Nat × Option GoErr :=
  let r := clientScanLoop g f fuelAmount first
  (r.1 - first, r.2)

/-- The loop of `MemStorage.ScanSequenced` (mem_storage.go), threading the
absolute index `i`; on the first missing entry, and on a callback error,
the function returns `i` itself. -/
def memScanLoop (fs : Store) (f : Nat → String → Option GoErr) :
    Nat → Nat → Nat × Option GoErr
  | 0, i => (i, some .fuel)
  | fuelLeft + 1, i =>
    match lookupStore fs (seqPath i) with
    | none => (i, none)
    | some entry =>
      match f i entry with
      | some err => (i, some err)
      | none => memScanLoop fs f fuelLeft (i + 1)

/-- Embeds `MemStorage.ScanSequenced` (mem_storage.go). -/
def memScanSequenced (fs : Store) (first : Nat) (f : Nat → String → Option GoErr)
    (fuelAmount : Nat) : Nat × Option GoErr :=
  memScanLoop fs f fuelAmount first

/-- The checkpoint object: contents plus the GCS object generation, which
is positive for every live object and strictly increases on replacement. -/
def CPCell := Option (String × Int)

instance : DecidableEq CPCell := by unfold CPCell; infer_instance

/-- The write precondition chosen by `Client.WriteCheckpoint`
(`gcs.Conditions` with either `DoesNotExist` or `GenerationMatch`). -/
inductive WriteCond where
  | doesNotExist
  | genMatch (g : Int)
  deriving DecidableEq

/-- The condition selection of `Client.WriteCheckpoint` (function.go):
`DoesNotExist` when the stashed generation is zero, `GenerationMatch` on
the stashed generation otherwise. -/
def writeCond (checkpointGen : Int) : WriteCond :=
  if checkpointGen = 0 then .doesNotExist else .genMatch checkpointGen

/-- Embeds `Client.WriteCheckpoint` (function.go): write `raw` to the checkpoint
object under the chosen precondition; a violated precondition is the HTTP
412 failure and the cell is untouched; a successful replacement bumps the
generation. -/
def WriteCheckpoint (checkpointGen : Int) (cell : CPCell) (raw : String) :
    CPCell × Option GoErr :=
  match writeCond checkpointGen, cell with
  | .doesNotExist, none => (some (raw, 1), none)
  | .doesNotExist, some c => (some c, some (.gapi 412))
  | .genMatch g, some (_, gen) =>
    if gen = g then (some (raw, gen + 1), none) else (cell, some (.gapi 412))
  | .genMatch _, none => (none, some (.gapi 412))

/-- Embeds `Client.ReadCheckpoint` (function.go): fetch the checkpoint object's
attributes, stash its generation in the client, and return its contents;
an absent object surfaces as NotExist from the attributes probe. -/
def ReadCheckpoint (cell : CPCell) : Except GoErr (Int × String) :=
  match cell with
  | none => .error .notExist
  | some (b, gen) => .ok (gen, b)

/-- Modulus for the 32-bit truncated arithmetic helpers for SHA-256, written with division
and remainder so every step reduces structurally. -/
def M32 : Nat := 4294967296

/-- Bitwise exclusive or of the low `k` bits. -/
def bitsXor : Nat → Nat → Nat → Nat
  | 0, _, _ => 0
  | k + 1, x, y =>
    (if (x % 2 + y % 2) % 2 = 1 then 1 else 0) + 2 * bitsXor k (x / 2) (y / 2)

/-- Bitwise and of the low `k` bits. -/
def bitsAnd : Nat → Nat → Nat → Nat
  | 0, _, _ => 0
  | k + 1, x, y =>
    (if x % 2 = 1 ∧ y % 2 = 1 then 1 else 0) + 2 * bitsAnd k (x / 2) (y / 2)

def xor32 (x y : Nat) : Nat := bitsXor 32 x y

def and32 (x y : Nat) : Nat := bitsAnd 32 x y

/-- Complement within 32 bits of a reduced word. -/
def not32 (x : Nat) : Nat := (M32 - 1) - x % M32

/-- Rotate a 32-bit word right by `n` (for `0 < n < 32`). -/
def rotr32 (x n : Nat) : Nat := (x / 2 ^ n + x * 2 ^ (32 - n)) % M32

def shr32 (x n : Nat) : Nat := x / 2 ^ n

/-- Modelled from the spec: missing RFC 6962 hashing dependency, realized
by FIPS 180-4 SHA-256.  Round constants. -/
def shaK : List Nat :=
  [1116352408, 1899447441, 3049323471, 3921009573, 961987163, 1508970993,
   2453635748, 2870763221, 3624381080, 310598401, 607225278, 1426881987,
   1925078388, 2162078206, 2614888103, 3248222580, 3835390401, 4022224774,
   264347078, 604807628, 770255983, 1249150122, 1555081692, 1996064986,
   2554220882, 2821834349, 2952996808, 3210313671, 3336571891, 3584528711,
   113926993, 338241895, 666307205, 773529912, 1294757372, 1396182291,
   1695183700, 1986661051, 2177026350, 2456956037, 2730485921, 2820302411,
   3259730800, 3345764771, 3516065817, 3600352804, 4094571909, 275423344,
   430227734, 506948616, 659060556, 883997877, 958139571, 1322822218,
   1537002063, 1747873779, 1955562222, 2024104815, 2227730452, 2361852424,
   2428436474, 2756734187, 3204031479, 3329325298]

/-- Initial hash value. -/
def shaH0 : List Nat :=
  [1779033703, 3144134277, 1013904242, 2773480762,
   1359893119, 2600822924, 528734635, 1541459225]

def ssig0 (x : Nat) : Nat := xor32 (xor32 (rotr32 x 7) (rotr32 x 18)) (shr32 x 3)

def ssig1 (x : Nat) : Nat := xor32 (xor32 (rotr32 x 17) (rotr32 x 19)) (shr32 x 10)

def bsig0 (x : Nat) : Nat := xor32 (xor32 (rotr32 x 2) (rotr32 x 13)) (rotr32 x 22)

def bsig1 (x : Nat) : Nat := xor32 (xor32 (rotr32 x 6) (rotr32 x 11)) (rotr32 x 25)

def shaCh (x y z : Nat) : Nat := xor32 (and32 x y) (and32 (not32 x) z)

def shaMaj (x y z : Nat) : Nat := xor32 (xor32 (and32 x y) (and32 x z)) (and32 y z)

/-- Merkle-Damgard padding: append `0x80`, zeros, then the bit length over
eight bytes, reaching a multiple of 64 bytes. -/
def shaPad (msg : List Nat) : List Nat :=
  let len := msg.length
  let zeros := (55 + 64 - len % 64) % 64
  let lenBits := 8 * len
  msg ++ [0x80] ++ List.replicate zeros 0 ++
    [(lenBits / 2 ^ 56) % 256, (lenBits / 2 ^ 48) % 256, (lenBits / 2 ^ 40) % 256,
     (lenBits / 2 ^ 32) % 256, (lenBits / 2 ^ 24) % 256, (lenBits / 2 ^ 16) % 256,
     (lenBits / 2 ^ 8) % 256, lenBits % 256]

/-- Big-endian 32-bit words of a byte list. -/
def wordsOfBytes : List Nat → List Nat
  | b0 :: b1 :: b2 :: b3 :: rest =>
    (((b0 * 256 + b1) * 256 + b2) * 256 + b3) :: wordsOfBytes rest
  | _ => []

/-- Extend the 16 block words to 64 schedule words; the accumulator keeps
the most recent word first. -/
def shaExtend : Nat → List Nat → List Nat
  | 0, acc => acc
  | k + 1, acc =>
    shaExtend k
      ((ssig1 (acc.getD 1 0) + acc.getD 6 0 + ssig0 (acc.getD 14 0) + acc.getD 15 0) % M32
        :: acc)

def shaSchedule (block : List Nat) : List Nat :=
  (shaExtend 48 block.reverse).reverse

/-- One compression round over the state `[a,b,c,d,e,f,g,h]`. -/
def shaRound (s : List Nat) (kw : Nat × Nat) : List Nat :=
  match s with
  | [a, b, c, d, e, f, g, h] =>
    let t1 := (h + bsig1 e + shaCh e f g + kw.1 + kw.2) % M32
    let t2 := (bsig0 a + shaMaj a b c) % M32
    [(t1 + t2) % M32, a, b, c, (d + t1) % M32, e, f, g]
  | s => s

/-- Compress one 64-byte block into the chaining state. -/
def shaCompress (state block : List Nat) : List Nat :=
  let w := shaSchedule (wordsOfBytes block)
  let out := (shaK.zip w).foldl shaRound state
  (state.zip out).map (fun p => (p.1 + p.2) % M32)

def shaBlocks : Nat → List Nat → List Nat → List Nat
  | 0, state, _ => state
  | _ + 1, state, [] => state
  | k + 1, state, bytes => shaBlocks k (shaCompress state (bytes.take 64)) (bytes.drop 64)

/-- Big-endian bytes of a list of 32-bit words. -/
def bytesOfWords : List Nat → List Nat
  | [] => []
  | w :: rest =>
    (w / 2 ^ 24) % 256 :: (w / 2 ^ 16) % 256 :: (w / 2 ^ 8) % 256 :: w % 256 ::
      bytesOfWords rest

/-- Modelled from the spec: missing RFC 6962 hashing dependency
(`rfc6962.DefaultHasher`), whose empty root is `SHA-256("")`.  Full FIPS
180-4 SHA-256 over a byte list. -/
def sha256 (msg : List Nat) : List Nat :=
  let padded := shaPad msg
  bytesOfWords (shaBlocks (padded.length / 64 + 1) shaH0 padded)

/-- Modelled from the spec: `EmptyRoot()` of the RFC 6962 hasher. -/
def emptyRoot : List Nat := sha256 []

/-- Standard base64 alphabet. -/
def b64Alphabet : List Char :=
  "ABCDEFGHIJKLMNOPQRSTUVWXYZabcdefghijklmnopqrstuvwxyz0123456789+/".data

def b64Char (n : Nat) : String := String.mk [b64Alphabet.getD n 'A']

/-- Standard base64 encoding with padding. -/
def base64 : List Nat → String
  | b0 :: b1 :: b2 :: rest =>
    let n := (b0 * 256 + b1) * 256 + b2
    b64Char (n / 2 ^ 18) ++ b64Char ((n / 2 ^ 12) % 64) ++ b64Char ((n / 2 ^ 6) % 64) ++
      b64Char (n % 64) ++ base64 rest
  | [b0, b1] =>
    let n := (b0 * 256 + b1) * 4
    b64Char (n / 2 ^ 12) ++ b64Char ((n / 2 ^ 6) % 64) ++ b64Char (n % 64) ++ "="
  | [b0] =>
    let n := b0 * 16
    b64Char (n / 2 ^ 6) ++ b64Char (n % 64) ++ "=="
  | [] => ""

/-- Modelled from the spec: missing checkpoint-format dependency
(`fmtlog.Checkpoint`): origin, decimal size and base64 root hash. -/
structure Checkpoint where
  origin : String
  size : Nat
  hash : List Nat
  deriving DecidableEq

/-- Modelled from the spec: `Checkpoint.Marshal`, the three-line text
body. -/
def Checkpoint.marshal (cp : Checkpoint) : String :=
  cp.origin ++ "\n" ++ toString cp.size ++ "\n" ++ base64 cp.hash ++ "\n"

/-- The `Initialise` branch of `Integrate` (function.go) composed with the
origin assignment of `signAndWrite`: the checkpoint built is
`fmtlog.Checkpoint` with zero size and the hasher's empty root, its origin
set to the request origin before the note body is signed and written. -/
def integrateInitialise (origin : String) : Checkpoint :=
  { origin := origin, size := 0, hash := emptyRoot }

/-! Helper lemmas about the store model and the sequencing loop. -/

theorem lookupStore_cons (k v : String) (s : Store) (q : String) :
    lookupStore ((k, v) :: s) q = if k = q then some v else lookupStore s q := rfl

theorem seqPath_head (n : Nat) : (seqPath n).data.head? = some 's' := by
  simp [seqPath, String.data_append]

theorem leafPath_head (h : List Nat) : (leafPath h).data.head? = some 'l' := by
  unfold leafPath
  cases h with
  | nil => simp [String.data_append]
  | cons b0 t =>
    cases t with
    | nil => simp [String.data_append]
    | cons b1 t2 =>
      cases t2 with
      | nil => simp [String.data_append]
      | cons b2 t3 => simp [String.data_append]

theorem seqPath_ne_leafPath (n : Nat) (h : List Nat) : seqPath n ≠ leafPath h := by
  intro e
  have heads : (seqPath n).data.head? = (leafPath h).data.head? := by rw [e]
  rw [seqPath_head, leafPath_head] at heads
  exact absurd (Option.some_injective _ heads) (by decide)

theorem applyEnv_objs_mono (e : Env) :
    ∀ (g : GCS) (q b : String), lookupStore g.objs q = some b →
      lookupStore (applyEnv g e).objs q = some b := by
  induction e with
  | nil => intro g q b hq; simpa [applyEnv] using hq
  | cons pv rest ih =>
    intro g q b hq
    rw [applyEnv]
    rcases hp : lookupStore g.objs pv.1 with _ | w
    · refine ih _ q b ?_
      rw [lookupStore_cons]
      by_cases hpq : pv.1 = q
      · rw [hpq] at hp; rw [hp] at hq; exact absurd hq (by simp)
      · simpa [hpq] using hq
    · exact ih g q b hq

theorem applyEnv_attrsErr (e : Env) : ∀ g : GCS, (applyEnv g e).attrsErr = g.attrsErr := by
  induction e with
  | nil => intro g; rfl
  | cons pv rest ih =>
    intro g
    rw [applyEnv]
    rcases hp : lookupStore g.objs pv.1 with _ | w <;> simp [ih]

theorem applyEnv_writeErr (e : Env) : ∀ g : GCS, (applyEnv g e).writeErr = g.writeErr := by
  induction e with
  | nil => intro g; rfl
  | cons pv rest ih =>
    intro g
    rw [applyEnv]
    rcases hp : lookupStore g.objs pv.1 with _ | w <;> simp [ih]

/-- Bindings other than the leaf-mapping path survive the claim loop with
their value intact: every store mutation of the loop either creates an
absent object or rewrites the leaf mapping at `lp`. -/
theorem seqLoop_mono (leaf lp : String) :
    ∀ (envs : List Env) (g : GCS) (hint : Nat) (q b : String), q ≠ lp →
      lookupStore g.objs q = some b →
      lookupStore (seqLoop leaf lp g hint envs).1.objs q = some b := by
  intro envs
  induction envs with
  | nil => intro g hint q b _ hq; simpa [seqLoop] using hq
  | cons env envs ih =>
    intro g hint q b hql hq
    rw [seqLoop]
    split
    · simpa using hq
    · split
      · exact ih _ _ q b hql hq
      · rename_i hlk
        have hq1 : lookupStore (applyEnv g env).objs q = some b :=
          applyEnv_objs_mono env g q b hq
        split
        · exact ih _ _ q b hql hq1
        · simpa using hq1
        · rename_i g2 hcc
          have hq2 : lookupStore g2.objs q = some b := by
            rw [condCreate] at hcc
            split at hcc
            · cases hcc
            · split at hcc
              · cases hcc
              · rename_i hsp
                cases hcc
                rw [lookupStore_cons]
                by_cases hspq : seqPath hint = q
                · rw [hspq] at hsp; rw [hsp] at hq1; exact absurd hq1 (by simp)
                · simpa [hspq] using hq1
          split
          · simpa using hq2
          · rename_i g3 huw
            rw [uncondWrite] at huw
            split at huw
            · cases huw
            · cases huw
              have hlpq : ¬ lp = q := fun hc => hql hc.symm
              simpa [lookupStore_cons, hlpq] using hq2

/-- On a successful return the claim loop yields a sequence number at or
above the starting hint, leaves the hint at the claimed number, stores the
leaf bytes at the claimed sequence path, and every sequence number skipped
on the way is occupied in the final store (given no injected writer
failures). -/
theorem seqLoop_ok (leaf lp : String) (hlp : ∀ n : Nat, seqPath n ≠ lp) :
    ∀ (envs : List Env) (g : GCS) (hint : Nat) (g' : GCS) (hint' seq : Nat),
      g.writeErr = [] →
      seqLoop leaf lp g hint envs = (g', hint', (seq, none)) →
      hint ≤ seq ∧ hint' = seq ∧ lookupStore g'.objs (seqPath seq) = some leaf ∧
        ∀ m, hint ≤ m → m < seq → (lookupStore g'.objs (seqPath m)).isSome = true := by
  intro envs
  induction envs with
  | nil =>
    intro g hint g' hint' seq _ hret
    rw [seqLoop] at hret
    exact absurd (congrArg (fun r => r.2.2.2) hret) (by simp)
  | cons env envs ih =>
    intro g hint g' hint' seq hw hret
    rw [seqLoop] at hret
    split at hret
    · exact absurd (congrArg (fun r => r.2.2.2) hret) (by simp)
    · split at hret
      · rename_i w hlk
        obtain ⟨h1, h2, h3, h4⟩ := ih g (hint + 1) g' hint' seq hw hret
        refine ⟨by omega, h2, h3, ?_⟩
        intro m hm1 hm2
        rcases Nat.eq_or_lt_of_le hm1 with hme | hml
        · have : lookupStore g'.objs (seqPath hint) = some w := by
            have := seqLoop_mono leaf lp envs g (hint + 1) (seqPath hint) w (hlp hint) hlk
            rw [hret] at this
            exact this
          rw [← hme, this]
          rfl
        · exact h4 m hml hm2
      · rename_i hlk
        split at hret
        · -- precondition-failure retry
          rename_i hcc
          have hw1 : (applyEnv g env).writeErr = [] := by rw [applyEnv_writeErr, hw]
          obtain ⟨h1, h2, h3, h4⟩ := ih (applyEnv g env) (hint + 1) g' hint' seq hw1 hret
          refine ⟨by omega, h2, h3, ?_⟩
          intro m hm1 hm2
          rcases Nat.eq_or_lt_of_le hm1 with hme | hml
          · -- the 412 means the path was present in the race-updated store
            rw [condCreate, hw1] at hcc
            simp only [lookupErr] at hcc
            split at hcc
            · rename_i w2 hsp
              have := seqLoop_mono leaf lp envs (applyEnv g env) (hint + 1) (seqPath hint) w2 (hlp hint) hsp
              rw [hret] at this
              rw [← hme, this]
              rfl
            · cases hcc
          · exact h4 m hml hm2
        · cases hret
        · rename_i g2 hcc
          have hw1 : (applyEnv g env).writeErr = [] := by rw [applyEnv_writeErr, hw]
          rw [condCreate, hw1] at hcc
          simp only [lookupErr] at hcc
          split at hcc
          · cases hcc
          · rename_i hsp
            cases hcc
            split at hret
            · cases hret
            · rename_i g3 huw
              rw [uncondWrite] at huw
              simp only [hw1] at huw
              simp only [lookupErr] at huw
              cases huw
              cases hret
              refine ⟨Nat.le_refl _, rfl, ?_, ?_⟩
              · rw [lookupStore_cons]
                have : ¬ lp = seqPath hint := fun hc => hlp hint hc.symm
                rw [if_neg this, lookupStore_cons, if_pos rfl]
              · intro m hm1 hm2
                omega

/-- Specification of a successful `Sequence` call, shared by the claims
about the claim loop: the number returned is at or above the starting
hint, the hint is left at the claimed number, the claimed sequence path
holds the leaf bytes, and every skipped number is occupied. -/
theorem sequence_ok (g : GCS) (hint : Nat) (lh : List Nat) (leaf : String)
    (envs : List Env) (g' : GCS) (hint' seq : Nat) (hw : g.writeErr = [])
    (hret : Sequence g hint lh leaf envs = (g', hint', (seq, none))) :
    hint ≤ seq ∧ hint' = seq ∧ lookupStore g'.objs (seqPath seq) = some leaf ∧
      ∀ m, hint ≤ m → m < seq → (lookupStore g'.objs (seqPath m)).isSome = true := by
  rw [Sequence] at hret
  split at hret
  · exact absurd (congrArg (fun r => r.2.2.2) hret) (by simp)
  · split at hret
    · split at hret <;> exact absurd (congrArg (fun r => r.2.2.2) hret) (by simp)
    · exact seqLoop_ok leaf (leafPath lh) (fun n => seqPath_ne_leafPath n lh)
        envs g hint g' hint' seq hw hret

/-- C1: if `leaves/<h>` exists and its body parses as a hexadecimal
unsigned integer `n`, `Sequence` returns `(n, ErrDupeLeaf)` and leaves the
store (hence every `seq/` object) and the hint untouched; a read error on
`leaves/<h>` other than NotExist is returned to the caller, again with the
store untouched. -/
theorem sequence_dupe_probe (g : GCS) (hint : Nat) (lh : List Nat) (leaf : String)
    (envs : List Env) (body : String) (n : Nat) :
    (leafPath lh ∉ g.readErr → lookupStore g.objs (leafPath lh) = some body →
      parseHex body = some n →
      Sequence g hint lh leaf envs = (g, hint, (n, some .dupeLeaf))) ∧
    (leafPath lh ∈ g.readErr →
      Sequence g hint lh leaf envs = (g, hint, (0, some .transport))) := by
  constructor
  · intro hre hb hp
    simp only [Sequence, if_neg hre, hb, hp]
  · intro hre
    simp only [Sequence, if_pos hre]

/-- Witness for C1: a stored mapping `leaves/010203` with body `"1a"`
yields `(26, ErrDupeLeaf)` and no store change; an injected read error on
the mapping is returned. -/
theorem sequence_dupe_probe_witness :
    Sequence ⟨[(leafPath [1, 2, 3], "1a")], [], [], []⟩ 7 [1, 2, 3] "L" [] =
      (⟨[(leafPath [1, 2, 3], "1a")], [], [], []⟩, 7, (26, some .dupeLeaf)) ∧
    Sequence ⟨[], [leafPath [1, 2, 3]], [], []⟩ 7 [1, 2, 3] "L" [] =
      (⟨[], [leafPath [1, 2, 3]], [], []⟩, 7, (0, some .transport)) :=
  ⟨(sequence_dupe_probe ⟨[(leafPath [1, 2, 3], "1a")], [], [], []⟩ 7 [1, 2, 3] "L" []
      "1a" 26).1 (by decide) (by decide) (by decide),
   (sequence_dupe_probe ⟨[], [leafPath [1, 2, 3]], [], []⟩ 7 [1, 2, 3] "L" []
      "1a" 26).2 (by decide)⟩

/-- C2: a successful claim of a non-duplicate leaf probes upward from the
hint, so the returned number is at or above it, the skipped numbers were
all found occupied (they remain so in the final store), and the claimed
`seq/<n>` object, created by the conditional write, contains the leaf
bytes. -/
theorem sequence_probes_and_claims (g : GCS) (hint : Nat) (lh : List Nat)
    (leaf : String) (envs : List Env) (g' : GCS) (hint' seq : Nat)
    (hw : g.writeErr = [])
    (hret : Sequence g hint lh leaf envs = (g', hint', (seq, none))) :
    hint ≤ seq ∧ lookupStore g'.objs (seqPath seq) = some leaf ∧
      ∀ m, hint ≤ m → m < seq → (lookupStore g'.objs (seqPath m)).isSome = true := by
  obtain ⟨h1, _, h3, h4⟩ := sequence_ok g hint lh leaf envs g' hint' seq hw hret
  exact ⟨h1, h3, h4⟩

/-- Witness for C2: with `seq/0` occupied, a concurrent writer grabbing
`seq/1` between the probe and the conditional create (Precondition
failure), the call claims number 2, stores the leaf bytes there, and both
skipped numbers are occupied. -/
theorem sequence_probes_and_claims_witness :
    (0 : Nat) ≤ 2 ∧
    lookupStore [("leaves/09", "2"), ("seq/00/00/00/02", "L"),
      ("seq/00/00/00/01", "Y"), ("seq/00/00/00/00", "X")] (seqPath 2) = some "L" ∧
    (lookupStore [("leaves/09", "2"), ("seq/00/00/00/02", "L"),
      ("seq/00/00/00/01", "Y"), ("seq/00/00/00/00", "X")] (seqPath 1)).isSome = true := by
  obtain ⟨h1, h2, h3⟩ := sequence_probes_and_claims ⟨[(seqPath 0, "X")], [], [], []⟩ 0
    [9] "L" [[], [(seqPath 1, "Y")], []]
    ⟨[("leaves/09", "2"), ("seq/00/00/00/02", "L"), ("seq/00/00/00/01", "Y"),
      ("seq/00/00/00/00", "X")], [], [], []⟩ 2 2 (by decide) (by decide)
  exact ⟨h1, h2, h3 1 (by decide) (by decide)⟩

/-- Counterexample for C7: on a fresh store the call claims sequence
number 0 and returns dupe-free, but the in-process hint is left at 0, not
0 + 1 as the claim states. -/
theorem sequence_hint_counterexample :
    Sequence ⟨[], [], [], []⟩ 0 [9] "L" [[]] =
      (⟨[("leaves/09", "0"), ("seq/00/00/00/00", "L")], [], [], []⟩, 0, (0, none)) ∧
    ¬ (Sequence ⟨[], [], [], []⟩ 0 [9] "L" [[]]).2.1 = 0 + 1 := by decide

/-- C7 amended: after a successful claim of sequence number `n` the hint
equals `n` itself: it was advanced past occupied numbers during the probe
loop but is not incremented past the claimed number on return, preserving
the documented invariant that the hint never exceeds the next available
number. -/
theorem sequence_hint_equals_claimed (g : GCS) (hint : Nat) (lh : List Nat)
    (leaf : String) (envs : List Env) (seq : Nat) (hw : g.writeErr = [])
    (hret : (Sequence g hint lh leaf envs).2.2 = (seq, none)) :
    (Sequence g hint lh leaf envs).2.1 = seq ∧ hint ≤ seq := by
  obtain ⟨h1, h2, _, _⟩ := sequence_ok g hint lh leaf envs
    (Sequence g hint lh leaf envs).1 (Sequence g hint lh leaf envs).2.1 seq hw
    (by rw [← hret]; rfl)
  exact ⟨h2, h1⟩

/-- Witness for C7's amended claim: on a fresh store with hint 5 the call
claims number 5 and the hint on return is 5. -/
theorem sequence_hint_equals_claimed_witness :
    (Sequence ⟨[], [], [], []⟩ 5 [9] "L" [[]]).2.1 = 5 ∧ 5 ≤ 5 :=
  sequence_hint_equals_claimed ⟨[], [], [], []⟩ 5 [9] "L" [[]] 5 (by decide) (by decide)

/-- C3: `WriteCheckpoint` uses a does-not-exist precondition exactly when
the stashed generation is zero and a generation-match precondition on the
stashed generation otherwise; `ReadCheckpoint` stashes the stored
generation; consequently the write succeeds exactly when either the client
never read a checkpoint and none exists, or the checkpoint's current
generation still equals the stashed one — so it fails when the checkpoint
exists but was never read, and when it changed (new generation) since the
stashing read. -/
theorem write_checkpoint_cas (gen : Int) (cell : CPCell) (raw : String) :
    writeCond 0 = .doesNotExist ∧
    (gen ≠ 0 → writeCond gen = .genMatch gen) ∧
    (∀ (b : String) (g0 : Int), ReadCheckpoint (some (b, g0)) = .ok (g0, b)) ∧
    ((WriteCheckpoint gen cell raw).2 = none ↔
      (gen = 0 ∧ cell = none) ∨ (gen ≠ 0 ∧ ∃ b, cell = some (b, gen))) := by
  refine ⟨by simp [writeCond], fun h => by simp [writeCond, h], fun b g0 => rfl, ?_⟩
  by_cases hg : gen = 0
  · subst hg
    rcases cell with _ | ⟨b, cgen⟩ <;> simp [WriteCheckpoint, writeCond]
  · rcases cell with _ | ⟨b, cgen⟩
    · simp [WriteCheckpoint, writeCond, hg]
    · by_cases hc : cgen = gen
      · subst hc
        simp only [WriteCheckpoint, writeCond, if_neg hg, if_pos rfl]
        exact ⟨fun _ => Or.inr ⟨hg, ⟨b, rfl⟩⟩, fun _ => rfl⟩
      · simp only [WriteCheckpoint, writeCond, if_neg hg, if_neg hc]
        constructor
        · intro h; cases h
        · rintro (⟨h0, _⟩ | ⟨_, x, hx⟩)
          · exact absurd h0 hg
          · exact absurd (congrArg Prod.snd (Option.some_inj.mp hx)) hc

/-- Witness for C3: a stashed generation of 3 produces a generation-match
condition; the write succeeds against a checkpoint still at generation 3
and fails against one that moved to generation 5. -/
theorem write_checkpoint_cas_witness :
    writeCond 3 = .genMatch 3 ∧
    (WriteCheckpoint 3 (some ("c", 3)) "r").2 = none ∧
    ¬ (WriteCheckpoint 3 (some ("c", 5)) "r").2 = none :=
  ⟨(write_checkpoint_cas 3 (some ("c", 3)) "r").2.1 (by decide),
   (write_checkpoint_cas 3 (some ("c", 3)) "r").2.2.2.mpr
     (Or.inr ⟨by decide, ⟨"c", rfl⟩⟩),
   fun h =>
     by
       rcases (write_checkpoint_cas 3 (some ("c", 5)) "r").2.2.2.mp h with h1 | h2
       · exact absurd h1.1 (by decide)
       · obtain ⟨b, hb⟩ := h2.2
         have h53 : (5 : Int) = 3 := congrArg Prod.snd (Option.some_inj.mp hb)
         exact absurd h53 (by decide)⟩

/-- C4: when the conditional create inside `StoreTile` hits the 412
precondition failure because the object exists, the existing content is
read back and byte-compared with the serialized tile: identical content is
a no-op success, different content a hard error, and in both cases the
store is left unchanged — a tile is never rewritten. -/
theorem store_tile_conflict_check (g : GCS) (level index : Nat) (tile : Tile)
    (d : String) (hn1 : 1 ≤ tile.numLeaves) (hn2 : tile.numLeaves ≤ 256)
    (hex2h : lookupStore g.objs (tilePath level index (tile.numLeaves % 256)) = some d)
    (hre : tilePath level index (tile.numLeaves % 256) ∉ g.readErr)
    (hwe : lookupErr g.writeErr (tilePath level index (tile.numLeaves % 256)) = none) :
    (StoreTile g level index tile).1 = g ∧
    ((StoreTile g level index tile).2 = none ↔ d = marshalTile tile) := by
  have hval : ¬ (tile.numLeaves = 0 ∨ tile.numLeaves > 256) := by omega
  rw [StoreTile, if_neg hval, condCreate, hwe, hex2h]
  simp only [assertContent, if_neg hre, hex2h]
  by_cases he : d = marshalTile tile
  · simp [he]
  · simp [he, beq_eq_false_iff_ne.mpr he]

/-- Witness for C4: re-storing the tile whose serialization already sits
at its path is a no-op success, while a path holding different bytes makes
the call fail; the store is unchanged in both cases. -/
theorem store_tile_conflict_check_witness :
    (StoreTile ⟨[(tilePath 0 0 4, marshalTile ⟨4, ["h"]⟩)], [], [], []⟩ 0 0
        ⟨4, ["h"]⟩).1 = ⟨[(tilePath 0 0 4, marshalTile ⟨4, ["h"]⟩)], [], [], []⟩ ∧
    (StoreTile ⟨[(tilePath 0 0 4, marshalTile ⟨4, ["h"]⟩)], [], [], []⟩ 0 0
        ⟨4, ["h"]⟩).2 = none ∧
    ¬ (StoreTile ⟨[(tilePath 0 0 4, "other")], [], [], []⟩ 0 0 ⟨4, ["h"]⟩).2 = none := by
  refine ⟨?_, ?_, ?_⟩
  · exact (store_tile_conflict_check _ 0 0 ⟨4, ["h"]⟩ (marshalTile ⟨4, ["h"]⟩)
      (by decide) (by decide) (by decide) (by decide) (by decide)).1
  · exact (store_tile_conflict_check _ 0 0 ⟨4, ["h"]⟩ (marshalTile ⟨4, ["h"]⟩)
      (by decide) (by decide) (by decide) (by decide) (by decide)).2.mpr rfl
  · intro h
    exact absurd ((store_tile_conflict_check _ 0 0 ⟨4, ["h"]⟩ "other"
      (by decide) (by decide) (by decide) (by decide) (by decide)).2.mp h) (by decide)

/-- A partial-tile path is the unsuffixed path of the same tile followed by
the dot suffix. -/
theorem tilePath_suffix (level index n : Nat) (h1 : 1 ≤ n) (h2 : n ≤ 255) :
    tilePath level index n = tilePath level index 0 ++ ("." ++ hex2 n) := by
  rw [tilePath, tilePath, if_pos ⟨h1, h2⟩, if_neg (by omega), String.append_empty]

/-- Counterexample for C5: with only the full tile stored at the unsuffixed
path, a request whose expected partial size is 4 returns NotExist from both
implementations instead of falling back to the full tile. -/
theorem get_tile_no_fallback_counterexample :
    partialTileSize 0 0 4 = 4 ∧
    lookupStore [(tilePath 0 0 0, marshalTile ⟨256, []⟩)] (tilePath 0 0 0) =
      some (marshalTile ⟨256, []⟩) ∧
    unmarshalTile (marshalTile ⟨256, []⟩) = some ⟨256, []⟩ ∧
    lookupStore [(tilePath 0 0 0, marshalTile ⟨256, []⟩)] (tilePath 0 0 4) = none ∧
    GetTile ⟨[(tilePath 0 0 0, marshalTile ⟨256, []⟩)], [], [], []⟩ 0 0 4 =
      .error .notExist ∧
    memGetTile [(tilePath 0 0 0, marshalTile ⟨256, []⟩)] 0 0 4 =
      .error .notExist := by decide

/-- C5 amended: `GetTile` computes the expected partial-tile size for
`(level, index, logSize)` and reads only the corresponding path: a stored
object there that parses is returned, and an absent object yields NotExist
with no fallback read of the unsuffixed full-tile path; the in-memory test
double behaves identically. -/
theorem get_tile_single_path (g : GCS) (level index logSize : Nat)
    (hre : tilePath level index (partialTileSize level index logSize) ∉ g.readErr) :
    (lookupStore g.objs (tilePath level index (partialTileSize level index logSize)) =
        none →
      GetTile g level index logSize = .error .notExist ∧
        memGetTile g.objs level index logSize = .error .notExist) ∧
    (∀ (t : String) (tile : Tile),
      lookupStore g.objs (tilePath level index (partialTileSize level index logSize)) =
        some t →
      unmarshalTile t = some tile →
      GetTile g level index logSize = .ok tile ∧
        memGetTile g.objs level index logSize = .ok tile) := by
  constructor
  · intro habs
    constructor
    · simp only [GetTile, if_neg hre, habs]
    · simp only [memGetTile, habs]
  · intro t tile hsome hun
    constructor
    · simp only [GetTile, if_neg hre, hsome, hun]
    · simp only [memGetTile, hsome, hun]

/-- Witness for C5's amended claim: an absent exact-partial path yields
NotExist even though the full tile exists, and a stored partial parses and
is returned. -/
theorem get_tile_single_path_witness :
    GetTile ⟨[(tilePath 0 0 0, marshalTile ⟨256, ["r"]⟩)], [], [], []⟩ 0 0 5 =
      .error .notExist ∧
    GetTile ⟨[(tilePath 0 0 5, marshalTile ⟨5, ["q"]⟩)], [], [], []⟩ 0 0 5 =
      .ok ⟨5, ["q"]⟩ := by
  constructor
  · exact ((get_tile_single_path ⟨[(tilePath 0 0 0, marshalTile ⟨256, ["r"]⟩)], [], [], []⟩
      0 0 5 (by decide)).1 (by decide)).1
  · exact ((get_tile_single_path ⟨[(tilePath 0 0 5, marshalTile ⟨5, ["q"]⟩)], [], [], []⟩
      0 0 5 (by decide)).2 (marshalTile ⟨5, ["q"]⟩) ⟨5, ["q"]⟩ (by decide) (by decide)).1

/-- C6: with the target path free, `StoreTile` succeeds exactly when the
tile-leaf count lies in `[1, 256]`; on success the serialized tile is
stored at the path formed from the count reduced modulo 256, which carries
the `.<count>` suffix for counts in `[1, 255]` and is the unsuffixed
full-tile path for count 256. -/
theorem store_tile_validation_layout (g : GCS) (level index : Nat) (tile : Tile)
    (habs : lookupStore g.objs (tilePath level index (tile.numLeaves % 256)) = none)
    (hwe : lookupErr g.writeErr (tilePath level index (tile.numLeaves % 256)) = none) :
    ((StoreTile g level index tile).2 = none ↔
      1 ≤ tile.numLeaves ∧ tile.numLeaves ≤ 256) ∧
    (1 ≤ tile.numLeaves → tile.numLeaves ≤ 256 →
      lookupStore (StoreTile g level index tile).1.objs
        (tilePath level index (tile.numLeaves % 256)) = some (marshalTile tile)) ∧
    (1 ≤ tile.numLeaves → tile.numLeaves ≤ 255 →
      tilePath level index (tile.numLeaves % 256) =
        tilePath level index 0 ++ ("." ++ hex2 tile.numLeaves)) ∧
    (tile.numLeaves = 256 → tilePath level index (tile.numLeaves % 256) =
      tilePath level index 0) := by
  refine ⟨?_, ?_, ?_, ?_⟩
  · by_cases hval : tile.numLeaves = 0 ∨ tile.numLeaves > 256
    · rw [StoreTile, if_pos hval]
      constructor
      · intro h; cases h
      · intro h; omega
    · rw [StoreTile, if_neg hval, condCreate, hwe, habs]
      exact ⟨fun _ => by omega, fun _ => rfl⟩
  · intro h1 h2
    have hval : ¬ (tile.numLeaves = 0 ∨ tile.numLeaves > 256) := by omega
    rw [StoreTile, if_neg hval, condCreate, hwe, habs]
    simp [lookupStore_cons]
  · intro h1 h2
    rw [Nat.mod_eq_of_lt (by omega)]
    exact tilePath_suffix level index tile.numLeaves h1 h2
  · intro h
    rw [h]

/-- Witness for C6: a 4-leaf tile succeeds and lands at the `.04` partial
path, which is the unsuffixed path plus the suffix; a 256-leaf tile lands
at the unsuffixed path itself; a 0-leaf tile fails. -/
theorem store_tile_validation_layout_witness :
    (StoreTile ⟨[], [], [], []⟩ 0 0 ⟨4, ["h"]⟩).2 = none ∧
    lookupStore (StoreTile ⟨[], [], [], []⟩ 0 0 ⟨4, ["h"]⟩).1.objs (tilePath 0 0 4) =
      some (marshalTile ⟨4, ["h"]⟩) ∧
    tilePath 0 0 (4 % 256) = tilePath 0 0 0 ++ ("." ++ hex2 4) ∧
    tilePath 0 0 (256 % 256) = tilePath 0 0 0 ∧
    ¬ (StoreTile ⟨[], [], [], []⟩ 0 0 ⟨0, []⟩).2 = none := by
  refine ⟨?_, ?_, ?_, ?_, ?_⟩
  · exact (store_tile_validation_layout ⟨[], [], [], []⟩ 0 0 ⟨4, ["h"]⟩ (by decide)
      (by decide)).1.mpr (by decide)
  · exact (store_tile_validation_layout ⟨[], [], [], []⟩ 0 0 ⟨4, ["h"]⟩ (by decide)
      (by decide)).2.1 (by decide) (by decide)
  · exact (store_tile_validation_layout ⟨[], [], [], []⟩ 0 0 ⟨4, ["h"]⟩ (by decide)
      (by decide)).2.2.1 (by decide) (by decide)
  · exact (store_tile_validation_layout ⟨[], [], [], []⟩ 0 0 ⟨256, []⟩ (by decide)
      (by decide)).2.2.2 rfl
  · intro h
    exact absurd ((store_tile_validation_layout ⟨[], [], [], []⟩ 0 0 ⟨0, []⟩ (by decide)
      (by decide)).1.mp h) (by decide)

/-- C8 (code bug): when the writer close inside `StoreTile` fails with a
googleapi error whose code is not 412 (here an HTTP 500 server error), the
switch statement falls through without returning, so `StoreTile` reports
success although nothing was written; only non-googleapi failures are
propagated. -/
theorem store_tile_swallows_googleapi_error :
    (StoreTile ⟨[], [], [], [(tilePath 0 0 4, .gapi 500)]⟩ 0 0 ⟨4, ["h"]⟩).2 = none ∧
    lookupStore (StoreTile ⟨[], [], [], [(tilePath 0 0 4, .gapi 500)]⟩ 0 0
      ⟨4, ["h"]⟩).1.objs (tilePath 0 0 4) = none ∧
    (StoreTile ⟨[], [], [], [(tilePath 0 0 4, .transport)]⟩ 0 0 ⟨4, ["h"]⟩).2 =
      some .transport := by decide

/-- C9: the checkpoint signed and written by `Integrate` with the
initialise option has size 0 and the RFC 6962 empty root, SHA-256 of the
empty string, whose base64 rendering is the expected constant; the
marshalled note body for the scenario origin is the expected three-line
text. -/
theorem integrate_initialise_empty_checkpoint (origin : String) :
    (integrateInitialise origin).size = 0 ∧
    (integrateInitialise origin).hash = sha256 [] ∧
    base64 (integrateInitialise origin).hash =
      "47DEQpj8HBSa+/TImW+5JCeuQeRkm5NMpJWZG3hSuFU=" ∧
    (integrateInitialise "example.com/log").marshal =
      "example.com/log\n0\n47DEQpj8HBSa+/TImW+5JCeuQeRkm5NMpJWZG3hSuFU=\n" := by
  have h : base64 (sha256 []) = "47DEQpj8HBSa+/TImW+5JCeuQeRkm5NMpJWZG3hSuFU=" := by
    decide
  refine ⟨rfl, rfl, h, ?_⟩
  show "example.com/log" ++ "\n" ++ toString (0 : Nat) ++ "\n" ++ base64 (sha256 []) ++
    "\n" = _
  rw [h]
  decide

/-- Counterexample for C10: on a store holding entries 0 and 1, scanning
from index 1 visits one entry in both implementations, but the in-memory
implementation returns 2 (the first missing index) while the GCS client
returns 1 (the number of entries scanned) — the returned values differ. -/
theorem scan_sequenced_counterexample :
    memScanSequenced [(seqPath 0, "a"), (seqPath 1, "b")] 1 (fun _ _ => none) 10 =
      (2, none) ∧
    ScanSequenced ⟨[(seqPath 0, "a"), (seqPath 1, "b")], [], [], []⟩ 1
      (fun _ _ => none) 10 = (1, none) ∧
    ((2 : Nat), (none : Option GoErr)) ≠ ((1 : Nat), (none : Option GoErr)) := by
  exact ⟨by decide, by decide, by decide⟩

/-- With no injected read failures the two scan loops coincide step by
step. -/
theorem scanLoop_agree (fs : Store) (f : Nat → String → Option GoErr) :
    ∀ (fuelAmount first : Nat),
      clientScanLoop ⟨fs, [], [], []⟩ f fuelAmount first =
        memScanLoop fs f fuelAmount first := by
  intro fuelAmount
  induction fuelAmount with
  | zero => intro first; rfl
  | succ k ih =>
    intro first
    rw [clientScanLoop, memScanLoop]
    simp only [List.not_mem_nil, if_false]
    split
    · rfl
    · split
      · rfl
      · exact ih (first + 1)

/-- The in-memory scan never returns an index below its starting point. -/
theorem memScanLoop_ge (fs : Store) (f : Nat → String → Option GoErr) :
    ∀ (fuelAmount first : Nat), first ≤ (memScanLoop fs f fuelAmount first).1 := by
  intro fuelAmount
  induction fuelAmount with
  | zero => intro first; exact Nat.le_refl _
  | succ k ih =>
    intro first
    rw [memScanLoop]
    split
    · exact Nat.le_refl _
    · split
      · exact Nat.le_refl _
      · exact Nat.le_trans (Nat.le_succ _) (ih (first + 1))

/-- C10 amended: the two implementations visit the same contiguous run of
sequenced entries from `first` (halting at the first missing index, or on
the same callback error), but their return values follow different
conventions: the GCS client returns the number of entries scanned while
the in-memory implementation returns the absolute index at which the scan
stopped, that is `first` plus the client count — the two values agree only
for scans starting at 0. -/
theorem scan_sequenced_refinement (fs : Store) (f : Nat → String → Option GoErr)
    (fuelAmount first : Nat) :
    clientScanLoop ⟨fs, [], [], []⟩ f fuelAmount first =
      memScanLoop fs f fuelAmount first ∧
    memScanSequenced fs first f fuelAmount =
      (first + (ScanSequenced ⟨fs, [], [], []⟩ first f fuelAmount).1,
        (ScanSequenced ⟨fs, [], [], []⟩ first f fuelAmount).2) := by
  refine ⟨scanLoop_agree fs f fuelAmount first, ?_⟩
  have hge := memScanLoop_ge fs f fuelAmount first
  rw [memScanSequenced, ScanSequenced, scanLoop_agree fs f fuelAmount first]
  have : first + ((memScanLoop fs f fuelAmount first).1 - first) =
      (memScanLoop fs f fuelAmount first).1 := by omega
  rw [this]

end SLog
